import Mathlib

/-!
Verification of the Minecraft server manager (`src/manager/server.js` and its
browser counterpart `src/manager/public/app.js`).

The supervisor is a single-threaded event-driven program: every state change
happens inside one of the `socket.on` / child-process event handlers, which run
to completion one at a time.  We embed each handler as a pure function from the
manager's mutable state to a new state together with the ordered list of
effects it performs (socket emissions, stdin writes, process spawns, scheduled
timers).  JavaScript string operations (`split`, `join`, `trim`,
`startsWith`, `includes`) are embedded as functions on `String` via its
character list.
-/

namespace MinecraftManager

/-! ## JavaScript string primitives -/

/-- JS `s.split(sep)` for a one-character separator: split the character list
on every occurrence of `sep`.  `"".split(sep)` is `[""]`, and separators are
not kept, exactly as `List.splitOn` behaves on the character list. -/
def jsSplit (sep : Char) (s : String) : List String :=
  (s.data.splitOn sep).map String.mk

/-- JS `parts.join(sep)` for a one-character separator. -/
def jsJoin (sep : Char) : List String → String
  | [] => ""
  | [s] => s
  | s :: s2 :: ss => s ++ String.singleton sep ++ jsJoin sep (s2 :: ss)

/-- JS `s.trim()`: strip whitespace from both ends (ASCII whitespace; the
configuration file and console lines contain no exotic Unicode spaces). -/
def jsTrim (s : String) : String :=
  String.mk (((s.data.dropWhile Char.isWhitespace).reverse.dropWhile
    Char.isWhitespace).reverse)

/-- JS `s.startsWith(p)` for the one-character prefixes the code uses. -/
def jsStartsWith (c : Char) (s : String) : Bool :=
  s.data.head? = some c

/-- Boolean infix test on character lists, used to embed JS `s.includes(t)`. -/
def charsInfix (needle : List Char) : List Char → Bool
  | [] => needle.isEmpty
  | c :: cs => needle.isPrefixOf (c :: cs) || charsInfix needle cs

/-- JS `s.includes(t)`. -/
def jsIncludes (s t : String) : Bool :=
  charsInfix t.data s.data

/-! ## Configuration reader (`getServerProperties`, server.js lines 25-40) -/

/-- JS object assignment `props[k] = v` on a mapping kept in insertion order:
re-assigning an existing key keeps its position, a new key goes to the end. -/
def setProp (props : List (String × String)) (k v : String) :
    List (String × String) :=
  if props.any (fun p => p.1 = k) then
    props.map (fun p => if p.1 = k then (k, v) else p)
  else props ++ [(k, v)]

/-- One iteration of the `forEach` body in `getServerProperties`:
`if (line && !line.startsWith('#')) { const [key, ...valueParts] =
line.split('='); if (key) props[key.trim()] = valueParts.join('=').trim(); }` -/
def applyPropsLine (props : List (String × String)) (line : String) :
    List (String × String) :=
  if line ≠ "" ∧ jsStartsWith '#' line = false then
    match jsSplit '=' line with
    | [] => props
    | key :: valueParts =>
      if key ≠ "" then setProp props (jsTrim key) (jsTrim (jsJoin '=' valueParts))
      else props
  else props

/-- Parse the text of `server.properties`: split on newlines and fold the
per-line assignment over an initially empty object. -/
def parseServerProperties (content : String) : List (String × String) :=
  (jsSplit '\n' content).foldl applyPropsLine []

/-- `getServerProperties` wrapped in its `try/catch`: a failed
`fs.readFileSync` (file missing, I/O error) is the `none` case and yields the
empty mapping; the function is total and never propagates an error. -/
def getServerProperties (file : Option String) : List (String × String) :=
  match file with
  | none => []
  | some content => parseServerProperties content

/-! ## Supervisor state (server.js lines 19-22) -/

/-- Console history capacity (`const MAX_HISTORY = 500`). -/
def MAX_HISTORY : Nat := 500

/-- The manager's module-level mutable state.  `minecraftProcess` is the child
process handle (`none` embeds JS `null`); `restartCloseListeners` counts how
many extra `close` listeners the `restart` handler has registered on the
current process object (`minecraftProcess.on('close', ...)` inside
`socket.on('restart')`). -/
structure ManagerState where
  minecraftProcess : Option Unit
  serverStatus : String
  consoleHistory : List String
  restartCloseListeners : Nat
deriving DecidableEq, Repr

/-- Payload of a socket.io emission. -/
inductive Payload where
  | empty : Payload
  | str : String → Payload
  | lines : List String → Payload
  | props : List (String × String) → Payload
deriving DecidableEq, Repr

/-- A socket.io emission: `socket.emit` goes only to the client attached to
the current handler, `io.emit` broadcasts to every connected client. -/
inductive Emission where
  | toSocket : String → Payload → Emission
  | toAll : String → Payload → Emission
deriving DecidableEq, Repr

/-- An observable effect of one handler invocation, in program order. -/
inductive Effect where
  | emit : Emission → Effect
  | write : String → Effect
  | spawn : Effect
  | setTimer : Nat → Emission → Effect
deriving DecidableEq, Repr

/-! ## Event handlers (server.js lines 43-157) -/

/-- `io.on('connection', ...)` body before the `socket.on` registrations:
push current status, the full history and a fresh configuration snapshot to
the new connection only (server.js lines 47-49). -/
def handleConnection (props : List (String × String)) (st : ManagerState) :
    ManagerState × List Effect :=
  (st, [.emit (.toSocket "status" (.str st.serverStatus)),
        .emit (.toSocket "history" (.lines st.consoleHistory)),
        .emit (.toSocket "properties" (.props props))])

/-- `socket.on('start')` (server.js lines 52-113): if a handle exists, emit an
informational notice to the requesting client and return; otherwise set status
to `starting`, broadcast it and a notice, and spawn the child process (which
installs the stdout/stderr/close/error listeners on the fresh process object,
so the restart-registered listener count resets to zero). -/
def handleStart (st : ManagerState) : ManagerState × List Effect :=
  if st.minecraftProcess.isSome then
    (st, [.emit (.toSocket "console" (.str "[Manager] Server is already running!"))])
  else
    ({ st with serverStatus := "starting", minecraftProcess := some (),
               restartCloseListeners := 0 },
     [.emit (.toAll "status" (.str "starting")),
      .emit (.toAll "console" (.str "[Manager] Starting Minecraft server...")),
      .spawn])

/-- One history insertion (server.js lines 79-80 and 94-95):
`consoleHistory.push(line); if (consoleHistory.length > MAX_HISTORY)
consoleHistory.shift();` -/
def pushHistory (h : List String) (line : String) : List String :=
  let h1 := h ++ [line]
  if MAX_HISTORY < h1.length then h1.tail else h1

/-- The readiness heuristic (server.js line 84):
`line.includes('Done') && line.includes('For help')`. -/
def isReadyLine (line : String) : Bool :=
  jsIncludes line "Done" && jsIncludes line "For help"

/-- Body of the per-line `forEach` in the stdout data listener (server.js
lines 78-88), threading the state and the accumulated effects. -/
def stdoutLineStep (acc : ManagerState × List Effect) (line : String) :
    ManagerState × List Effect :=
  let st := acc.1
  let ready := isReadyLine line
  ({ st with consoleHistory := pushHistory st.consoleHistory line,
             serverStatus := if ready then "running" else st.serverStatus },
   acc.2 ++ [.emit (.toAll "console" (.str line))]
         ++ (if ready then [.emit (.toAll "status" (.str "running"))] else []))

/-- `minecraftProcess.stdout.on('data', ...)` (server.js lines 76-89): split
the chunk on newlines, keep the lines that are nonblank after trimming, and
process each in order. -/
def handleStdoutData (st : ManagerState) (data : String) :
    ManagerState × List Effect :=
  ((jsSplit '\n' data).filter (fun l => jsTrim l ≠ "")).foldl stdoutLineStep (st, [])

/-- Body of the per-line `forEach` in the stderr data listener (server.js
lines 93-97): like stdout but the stored and broadcast line carries an
`[ERROR] ` prefix and there is no readiness check. -/
def stderrLineStep (acc : ManagerState × List Effect) (line : String) :
    ManagerState × List Effect :=
  let st := acc.1
  ({ st with consoleHistory := pushHistory st.consoleHistory ("[ERROR] " ++ line) },
   acc.2 ++ [.emit (.toAll "console" (.str ("[ERROR] " ++ line)))])

/-- `minecraftProcess.stderr.on('data', ...)` (server.js lines 91-98). -/
def handleStderrData (st : ManagerState) (data : String) :
    ManagerState × List Effect :=
  ((jsSplit '\n' data).filter (fun l => jsTrim l ≠ "")).foldl stderrLineStep (st, [])

/-- The broadcast notice of the close listener (server.js line 101). -/
def closeNotice (code : Int) : String :=
  "[Manager] Server stopped with code " ++ toString code

/-- All `close` listeners of the current process object, in registration
order (server.js lines 100-105, then one listener per earlier restart,
server.js lines 149-153): broadcast the exit notice, set status to `stopped`,
broadcast it, clear the handle; each restart-registered listener schedules
`setTimeout(() => socket.emit('start'), 2000)`.  The process object is gone
afterwards, so its listener count is dropped with it. -/
def handleClose (st : ManagerState) (code : Int) : ManagerState × List Effect :=
  ({ st with serverStatus := "stopped", minecraftProcess := none,
             restartCloseListeners := 0 },
   [.emit (.toAll "console" (.str (closeNotice code))),
    .emit (.toAll "status" (.str "stopped"))]
   ++ List.replicate st.restartCloseListeners (.setTimer 2000 (.toSocket "start" .empty)))

/-- `minecraftProcess.on('error', ...)` (server.js lines 107-112): broadcast
an error notice, set status to `stopped`, broadcast it, clear the handle. -/
def handleError (st : ManagerState) (msg : String) : ManagerState × List Effect :=
  ({ st with serverStatus := "stopped", minecraftProcess := none,
             restartCloseListeners := 0 },
   [.emit (.toAll "console" (.str ("[Manager] Error: " ++ msg))),
    .emit (.toAll "status" (.str "stopped"))])

/-- `socket.on('stop')` (server.js lines 116-127). -/
def handleStop (st : ManagerState) : ManagerState × List Effect :=
  if st.minecraftProcess.isNone then
    (st, [.emit (.toSocket "console" (.str "[Manager] Server is not running!"))])
  else
    ({ st with serverStatus := "stopping" },
     [.emit (.toAll "status" (.str "stopping")),
      .emit (.toAll "console" (.str "[Manager] Stopping server...")),
      .write "stop\n"])

/-- `socket.on('command', ...)` (server.js lines 130-138). -/
def handleCommand (st : ManagerState) (cmd : String) : ManagerState × List Effect :=
  if st.minecraftProcess.isNone then
    (st, [.emit (.toSocket "console" (.str "[Manager] Server is not running!"))])
  else
    (st, [.emit (.toAll "console" (.str ("> " ++ cmd))),
          .write (cmd ++ "\n")])

/-- `socket.on('restart')` (server.js lines 141-157): with a handle, set
status to `restarting`, broadcast it and a notice, write the termination
command, and register one more `close` listener on the process object; with
no handle, `socket.emit('start')` — an emission of a `start` event TO the
requesting browser client, not an invocation of the server's own
`socket.on('start')` handler. -/
def handleRestart (st : ManagerState) : ManagerState × List Effect :=
  if st.minecraftProcess.isSome then
    ({ st with serverStatus := "restarting",
               restartCloseListeners := st.restartCloseListeners + 1 },
     [.emit (.toAll "status" (.str "restarting")),
      .emit (.toAll "console" (.str "[Manager] Restarting server...")),
      .write "stop\n"])
  else
    (st, [.emit (.toSocket "start" .empty)])

/-- Firing of the timer scheduled by a restart-registered close listener
(server.js lines 150-152): its callback is exactly `socket.emit('start')`,
again an emission to the client. -/
def handleTimerFire (st : ManagerState) : ManagerState × List Effect :=
  (st, [.emit (.toSocket "start" .empty)])

/-- The socket.io events the browser client registers handlers for
(`socket.on` calls in public/app.js lines 57-90).  An event emitted by the
server that is not in this list is silently dropped by the client. -/
def clientHandledEvents : List String :=
  ["status", "console", "history", "properties"]

/-! ## Event loop -/

/-- The discrete events the supervisor reacts to. -/
inductive Event where
  | connect : Event
  | clientStart : Event
  | clientStop : Event
  | clientRestart : Event
  | clientCommand : String → Event
  | stdoutData : String → Event
  | stderrData : String → Event
  | procClose : Int → Event
  | procError : String → Event
  | timerFire : Event
deriving DecidableEq, Repr

/-- Dispatch one event to its handler; `props` is the current on-disk
configuration snapshot read on connection. -/
def step (props : List (String × String)) (st : ManagerState) :
    Event → ManagerState × List Effect
  | .connect => handleConnection props st
  | .clientStart => handleStart st
  | .clientStop => handleStop st
  | .clientRestart => handleRestart st
  | .clientCommand cmd => handleCommand st cmd
  | .stdoutData d => handleStdoutData st d
  | .stderrData d => handleStderrData st d
  | .procClose c => handleClose st c
  | .procError m => handleError st m
  | .timerFire => handleTimerFire st

/-- Run a sequence of events, concatenating the effects in order. -/
def run (props : List (String × String)) (st : ManagerState) :
    List Event → ManagerState × List Effect
  | [] => (st, [])
  | e :: es =>
    let r1 := step props st e
    let r2 := run props r1.1 es
    (r2.1, r1.2 ++ r2.2)

/-- Iterate the `start` handler `n` times, concatenating effects. -/
def runStarts (st : ManagerState) : Nat → ManagerState × List Effect
  | 0 => (st, [])
  | n + 1 =>
    let r1 := handleStart st
    let r2 := runStarts r1.1 n
    (r2.1, r1.2 ++ r2.2)

/-! ## Helper lemmas -/

/-- Each history insertion preserves the capacity bound. -/
theorem pushHistory_length_le (h : List String) (line : String)
    (hl : h.length ≤ MAX_HISTORY) : (pushHistory h line).length ≤ MAX_HISTORY := by
  simp only [pushHistory]
  split
  · rename_i hc
    rw [List.length_tail]
    simp only [List.length_append, List.length_cons, List.length_nil] at *
    omega
  · rename_i hc
    simp only [List.length_append, List.length_cons, List.length_nil] at hc ⊢
    omega

/-- Folding insertions over a buffer within capacity keeps a suffix of the
inserted stream: everything except the overflow from the front. -/
theorem foldl_pushHistory_eq_drop (L : List String) :
    ∀ h : List String, h.length ≤ MAX_HISTORY →
      List.foldl pushHistory h L = (h ++ L).drop (h.length + L.length - MAX_HISTORY) := by
  induction L with
  | nil =>
    intro h hl
    simp only [List.foldl_nil, List.length_nil, List.append_nil, Nat.add_zero]
    rw [show h.length - MAX_HISTORY = 0 from by omega]
    simp
  | cons l ls ih =>
    intro h hl
    rw [List.foldl_cons]
    by_cases hc : MAX_HISTORY < h.length + 1
    · have hlen : h.length = MAX_HISTORY := by omega
      have hne : h ≠ [] := by
        intro he
        rw [he] at hlen
        simp [MAX_HISTORY] at hlen
      obtain ⟨a, t, rfl⟩ := List.exists_cons_of_ne_nil hne
      simp only [List.length_cons] at hlen
      have hpush : pushHistory (a :: t) l = t ++ [l] := by
        simp only [pushHistory]
        rw [if_pos (by simp only [List.length_append, List.length_cons,
          List.length_nil]; omega)]
        rfl
      have htl : (t ++ [l]).length ≤ MAX_HISTORY := by
        simp only [List.length_append, List.length_cons, List.length_nil]
        omega
      rw [hpush, ih _ htl]
      have h1 : (t ++ [l]).length + ls.length - MAX_HISTORY = ls.length := by
        simp only [List.length_append, List.length_cons, List.length_nil]
        omega
      have h2 : (a :: t).length + (l :: ls).length - MAX_HISTORY = ls.length + 1 := by
        simp only [List.length_cons]
        omega
      rw [h1, h2]
      simp only [List.append_assoc, List.singleton_append, List.cons_append,
        List.nil_append]
      rw [List.drop_succ_cons]
    · have hpush : pushHistory h l = h ++ [l] := by
        simp only [pushHistory]
        rw [if_neg (by simp only [List.length_append, List.length_cons,
          List.length_nil]; omega)]
      have hh : (h ++ [l]).length ≤ MAX_HISTORY := by
        simp only [List.length_append, List.length_cons, List.length_nil]
        omega
      have h1 : (h ++ [l]).length + ls.length - MAX_HISTORY
          = h.length + (l :: ls).length - MAX_HISTORY := by
        simp only [List.length_append, List.length_cons, List.length_nil]
        omega
      rw [hpush, ih _ hh, h1, List.append_assoc, List.singleton_append]

/-- The stdout listener inserts into the history only through `pushHistory`,
so a fold of its per-line body preserves the capacity bound. -/
theorem foldl_stdoutLineStep_length (lines : List String) :
    ∀ acc : ManagerState × List Effect, acc.1.consoleHistory.length ≤ MAX_HISTORY →
      (lines.foldl stdoutLineStep acc).1.consoleHistory.length ≤ MAX_HISTORY := by
  induction lines with
  | nil => intro acc h; exact h
  | cons l ls ih =>
    intro acc h
    rw [List.foldl_cons]
    have he : (stdoutLineStep acc l).1.consoleHistory =
        pushHistory acc.1.consoleHistory l := rfl
    exact ih _ (he ▸ pushHistory_length_le _ l h)

/-- Same capacity preservation for the stderr listener. -/
theorem foldl_stderrLineStep_length (lines : List String) :
    ∀ acc : ManagerState × List Effect, acc.1.consoleHistory.length ≤ MAX_HISTORY →
      (lines.foldl stderrLineStep acc).1.consoleHistory.length ≤ MAX_HISTORY := by
  induction lines with
  | nil => intro acc h; exact h
  | cons l ls ih =>
    intro acc h
    rw [List.foldl_cons]
    have he : (stderrLineStep acc l).1.consoleHistory =
        pushHistory acc.1.consoleHistory ("[ERROR] " ++ l) := rfl
    exact ih _ (he ▸ pushHistory_length_le _ _ h)

/-- `jsJoin` is `List.intercalate` on the character lists. -/
theorem jsJoin_eq_intercalate (c : Char) : ∀ ss : List String,
    jsJoin c ss = String.mk ([c].intercalate (ss.map String.data))
  | [] => rfl
  | [s] => by
    simp only [jsJoin, List.map_cons, List.map_nil, List.intercalate,
      List.intersperse_single, List.flatten, List.append_nil]
  | s :: s2 :: ss => by
    have ih := jsJoin_eq_intercalate c (s2 :: ss)
    apply String.ext
    simp only [jsJoin, ih, List.map_cons, List.intercalate,
      List.intersperse_cons₂, List.flatten, String.data_append,
      List.append_assoc]
    rfl

/-- Splitting on a separator and rejoining with it restores the string, so
the tail of a split is exactly the text after the first separator. -/
theorem jsJoin_jsSplit (c : Char) (s : String) : jsJoin c (jsSplit c s) = s := by
  have hdm : ∀ l : List Char, String.data (String.mk l) = l := fun _ => rfl
  rw [jsJoin_eq_intercalate]
  simp only [jsSplit, List.map_map, Function.comp_def, hdm, List.map_id',
    List.intercalate_splitOn]

/-! ## Claim theorems -/

/-- C1: the claim says `restart` schedules a delayed re-invocation of
`start()` (and with no handle behaves as `start()`).  Evaluating the handlers
at the failing inputs: with no handle, `restart` leaves the state untouched
and only emits a `start` event to the requesting browser client; with a
handle, the close listener it registers schedules a 2-second timer whose
callback again only emits a `start` event to that client.  The client
(public/app.js) registers no handler for a `start` event, so `start()` is
never re-invoked — unlike an actual `start()` call, which spawns the process
and sets status `starting`. -/
theorem restart_never_reinvokes_start :
    handleRestart ⟨none, "stopped", [], 0⟩ =
      (⟨none, "stopped", [], 0⟩, [.emit (.toSocket "start" .empty)]) ∧
    handleRestart ⟨some (), "running", [], 0⟩ =
      (⟨some (), "restarting", [], 1⟩,
       [.emit (.toAll "status" (.str "restarting")),
        .emit (.toAll "console" (.str "[Manager] Restarting server...")),
        .write "stop\n"]) ∧
    (handleClose ⟨some (), "restarting", [], 1⟩ 0).2 =
      [.emit (.toAll "console" (.str (closeNotice 0))),
       .emit (.toAll "status" (.str "stopped")),
       .setTimer 2000 (.toSocket "start" .empty)] ∧
    handleTimerFire ⟨none, "stopped", [], 0⟩ =
      (⟨none, "stopped", [], 0⟩, [.emit (.toSocket "start" .empty)]) ∧
    clientHandledEvents.contains "start" = false ∧
    (handleStart ⟨none, "stopped", [], 0⟩).1.serverStatus = "starting" ∧
    (handleStart ⟨none, "stopped", [], 0⟩).2.contains .spawn = true := by
  decide

/-- C2 counterexample: a process-exit event at a concrete state broadcasts
the exit-code notice but appends nothing to the console history buffer, so
the claim that the notice is appended to the buffer is false. -/
theorem close_notice_absent_from_history_cex :
    (handleClose ⟨some (), "running", [], 0⟩ 0).1.consoleHistory = [] ∧
    (handleClose ⟨some (), "running", [], 0⟩ 0).2.contains
      (.emit (.toAll "console" (.str (closeNotice 0)))) = true := by
  decide

/-- C2 amended: for every process-exit event the supervisor broadcasts a
notice line referencing the exit code, but the console history buffer is left
unchanged — the notice is never appended to it. -/
theorem close_broadcasts_notice_without_append (st : ManagerState) (code : Int) :
    (handleClose st code).1.consoleHistory = st.consoleHistory ∧
    (handleClose st code).2.head? =
      some (.emit (.toAll "console" (.str (closeNotice code)))) :=
  ⟨rfl, rfl⟩

/-- C3: after any process-exit event, whatever the exit code, and after any
launch-time error event, the status is `stopped` and the child-process handle
is cleared. -/
theorem exit_and_error_force_stopped_and_clear_handle (st : ManagerState)
    (code : Int) (msg : String) :
    (handleClose st code).1.serverStatus = "stopped" ∧
    (handleClose st code).1.minecraftProcess = none ∧
    (handleError st msg).1.serverStatus = "stopped" ∧
    (handleError st msg).1.minecraftProcess = none :=
  ⟨rfl, rfl, rfl, rfl⟩

/-- C4: every insertion keeps the console history within the fixed capacity
(both for the raw insertion primitive and for the stdout/stderr listeners),
and after capacity+1 insertions from empty the buffer is exactly the last
capacity-many lines in arrival order: the oldest entry was evicted first and
is absent whenever it does not reoccur later. -/
theorem consoleHistory_bounded_ring_buffer :
    (∀ (h : List String) (line : String), h.length ≤ MAX_HISTORY →
        (pushHistory h line).length ≤ MAX_HISTORY) ∧
    (∀ (st : ManagerState) (data : String), st.consoleHistory.length ≤ MAX_HISTORY →
        (handleStdoutData st data).1.consoleHistory.length ≤ MAX_HISTORY) ∧
    (∀ (st : ManagerState) (data : String), st.consoleHistory.length ≤ MAX_HISTORY →
        (handleStderrData st data).1.consoleHistory.length ≤ MAX_HISTORY) ∧
    (∀ (a : String) (t : List String), t.length = MAX_HISTORY →
        List.foldl pushHistory [] (a :: t) = t ∧
        (List.foldl pushHistory [] (a :: t)).length = MAX_HISTORY ∧
        (a ∉ t → a ∉ List.foldl pushHistory [] (a :: t))) := by
  have hmain : ∀ (a : String) (t : List String), t.length = MAX_HISTORY →
      List.foldl pushHistory [] (a :: t) = t := by
    intro a t ht
    rw [foldl_pushHistory_eq_drop (a :: t) [] (by simp)]
    simp only [List.length_nil, List.length_cons, List.nil_append, Nat.zero_add, ht]
    rw [show MAX_HISTORY + 1 - MAX_HISTORY = 1 from by omega]
    simp
  refine ⟨pushHistory_length_le, ?_, ?_, ?_⟩
  · intro st data h
    exact foldl_stdoutLineStep_length _ (st, []) h
  · intro st data h
    exact foldl_stderrLineStep_length _ (st, []) h
  · intro a t ht
    refine ⟨hmain a t ht, ?_, ?_⟩
    · rw [hmain a t ht, ht]
    · intro hna
      rw [hmain a t ht]
      exact hna

/-- Witness for C4 at concrete inputs. -/
theorem consoleHistory_bounded_ring_buffer_witness :
    (pushHistory [] "line").length ≤ MAX_HISTORY ∧
    (handleStdoutData ⟨some (), "starting", [], 0⟩
      "hello world\n").1.consoleHistory.length ≤ MAX_HISTORY ∧
    (handleStderrData ⟨some (), "starting", [], 0⟩
      "oops\n").1.consoleHistory.length ≤ MAX_HISTORY ∧
    List.foldl pushHistory [] ("oldest" :: List.replicate MAX_HISTORY "x") =
      List.replicate MAX_HISTORY "x" :=
  ⟨consoleHistory_bounded_ring_buffer.1 [] "line" (by decide),
   consoleHistory_bounded_ring_buffer.2.1 ⟨some (), "starting", [], 0⟩
     "hello world\n" (by decide),
   consoleHistory_bounded_ring_buffer.2.2.1 ⟨some (), "starting", [], 0⟩
     "oops\n" (by decide),
   (consoleHistory_bounded_ring_buffer.2.2.2 "oldest"
     (List.replicate MAX_HISTORY "x") (by simp)).1⟩

/-- C5: any number of extra `start` calls while a handle exists leave the
entire state (handle, status, history) unchanged, emit exactly one
informational notice per call to the requesting client, and perform no other
effect — in particular no second spawn. -/
theorem extra_start_calls_are_noops (st : ManagerState) (n : Nat)
    (h : st.minecraftProcess = some ()) :
    runStarts st n =
      (st, List.replicate n
        (.emit (.toSocket "console" (.str "[Manager] Server is already running!")))) := by
  induction n with
  | zero => rfl
  | succ n ih =>
    simp only [runStarts, handleStart, h, Option.isSome_some, if_pos]
    simp [ih, List.replicate_succ]

/-- Witness for C5: three extra `start` calls while running. -/
theorem extra_start_calls_are_noops_witness :
    runStarts ⟨some (), "running", ["line1"], 0⟩ 3 =
      (⟨some (), "running", ["line1"], 0⟩,
       List.replicate 3
         (.emit (.toSocket "console" (.str "[Manager] Server is already running!")))) :=
  extra_start_calls_are_noops ⟨some (), "running", ["line1"], 0⟩ 3 rfl

/-- C6: a trace beginning with a new connection first pushes exactly the
triple (current status, full buffered history in arrival order, configuration
snapshot) to that connection only (`toSocket`, not a broadcast), and every
line generated by later events comes after it in the output. -/
theorem connection_pushes_snapshot_before_later_lines
    (props : List (String × String)) (st : ManagerState) (es : List Event) :
    run props st (.connect :: es) =
      ((run props st es).1,
       [.emit (.toSocket "status" (.str st.serverStatus)),
        .emit (.toSocket "history" (.lines st.consoleHistory)),
        .emit (.toSocket "properties" (.props props))] ++ (run props st es).2) := by
  simp [run, step, handleConnection]

/-- C7 counterexample: for the line `a= b=c`, the text after the first
separator is `" b=c"`, but the stored value is the trimmed `"b=c"` — the
value is not rejoined verbatim. -/
theorem value_not_rejoined_verbatim_cex :
    jsSplit '=' "a= b=c" = ["a", " b", "c"] ∧
    jsJoin '=' [" b", "c"] = " b=c" ∧
    parseServerProperties "a= b=c" = [("a", "b=c")] ∧
    (" b=c" : String) ≠ "b=c" := by
  decide

/-- C7 amended: for every configuration line whose value portion contains the
separator, parsing splits only on the first separator — the line is literally
the key, one separator, and the rejoined remainder — and the stored value is
that rejoined remainder with surrounding whitespace trimmed (the key is
trimmed likewise). -/
theorem value_rejoined_after_first_separator_trimmed
    (props : List (String × String)) (line k : String) (vs : List String)
    (h1 : jsSplit '=' line = k :: vs) (h2 : vs ≠ []) (h3 : k ≠ "")
    (h4 : jsStartsWith '#' line = false) :
    line = k ++ "=" ++ jsJoin '=' vs ∧
    applyPropsLine props line = setProp props (jsTrim k) (jsTrim (jsJoin '=' vs)) := by
  have hline : line = jsJoin '=' (k :: vs) := by rw [← h1, jsJoin_jsSplit]
  have hne : line ≠ "" := by
    intro he
    rw [he] at h1
    have h0 : jsSplit '=' "" = [""] := by decide
    rw [h0] at h1
    exact h3 (List.cons.injEq .. ▸ h1).1.symm
  constructor
  · obtain ⟨v, vs2, rfl⟩ := List.exists_cons_of_ne_nil h2
    rw [hline]
    rfl
  · simp only [applyPropsLine, h1]
    rw [if_pos ⟨hne, h4⟩, if_pos h3]

/-- Witness for C7 (amended) on the line `a=b=c`. -/
theorem value_rejoined_after_first_separator_trimmed_witness :
    "a=b=c" = "a" ++ "=" ++ jsJoin '=' ["b", "c"] ∧
    applyPropsLine [] "a=b=c" =
      setProp [] (jsTrim "a") (jsTrim (jsJoin '=' ["b", "c"])) :=
  value_rejoined_after_first_separator_trimmed [] "a=b=c" "a" ["b", "c"]
    (by decide) (by decide) (by decide) (by decide)

/-- C8: the specified example lines parse as stated, line by line and as one
file. -/
theorem parseServerProperties_examples :
    parseServerProperties "motd=Hello World" = [("motd", "Hello World")] ∧
    parseServerProperties "#comment" = [] ∧
    parseServerProperties "" = [] ∧
    parseServerProperties "a=b=c" = [("a", "b=c")] ∧
    parseServerProperties "motd=Hello World\n#comment\n\na=b=c" =
      [("motd", "Hello World"), ("a", "b=c")] := by
  decide

/-- C9: a failed read of the configuration file (the `none` case of the
embedded `try/catch`) yields the empty mapping; `getServerProperties` is a
total function, so no error ever reaches its caller. -/
theorem getServerProperties_failure_yields_empty :
    getServerProperties none = [] :=
  rfl

/-- C10: while a handle exists, `stop` changes only the status field and
`command` changes nothing; their notices are broadcast (`toAll`) but never
appended to the history, so a client connecting right afterwards is pushed
the untouched history. -/
theorem stop_and_command_preserve_history_and_handle
    (props : List (String × String)) (st : ManagerState) (cmd : String)
    (h : st.minecraftProcess = some ()) :
    (handleStop st).1 = { st with serverStatus := "stopping" } ∧
    (handleStop st).2 =
      [.emit (.toAll "status" (.str "stopping")),
       .emit (.toAll "console" (.str "[Manager] Stopping server...")),
       .write "stop\n"] ∧
    handleCommand st cmd =
      (st, [.emit (.toAll "console" (.str ("> " ++ cmd))), .write (cmd ++ "\n")]) ∧
    Effect.emit (.toSocket "history" (.lines st.consoleHistory)) ∈
      (handleConnection props (handleStop st).1).2 ∧
    Effect.emit (.toSocket "history" (.lines st.consoleHistory)) ∈
      (handleConnection props (handleCommand st cmd).1).2 := by
  have hn : st.minecraftProcess.isNone = false := by simp [h]
  refine ⟨?_, ?_, ?_, ?_, ?_⟩ <;>
    simp [handleStop, handleCommand, handleConnection, hn]

/-- Witness for C10 at a concrete running state. -/
theorem stop_and_command_preserve_history_and_handle_witness :
    (handleStop ⟨some (), "running", ["line1"], 0⟩).1 =
      { (⟨some (), "running", ["line1"], 0⟩ : ManagerState) with
          serverStatus := "stopping" } ∧
    (handleStop ⟨some (), "running", ["line1"], 0⟩).2 =
      [.emit (.toAll "status" (.str "stopping")),
       .emit (.toAll "console" (.str "[Manager] Stopping server...")),
       .write "stop\n"] ∧
    handleCommand ⟨some (), "running", ["line1"], 0⟩ "say hi" =
      (⟨some (), "running", ["line1"], 0⟩,
       [.emit (.toAll "console" (.str ("> " ++ "say hi"))),
        .write ("say hi" ++ "\n")]) ∧
    Effect.emit (.toSocket "history" (.lines ["line1"])) ∈
      (handleConnection [("motd", "A")]
        (handleStop ⟨some (), "running", ["line1"], 0⟩).1).2 ∧
    Effect.emit (.toSocket "history" (.lines ["line1"])) ∈
      (handleConnection [("motd", "A")]
        (handleCommand ⟨some (), "running", ["line1"], 0⟩ "say hi").1).2 :=
  stop_and_command_preserve_history_and_handle [("motd", "A")]
    ⟨some (), "running", ["line1"], 0⟩ "say hi" rfl

end MinecraftManager
